import Mathlib

/-!
Suma de Archivos (`TallerFork/taller_procesos.c`).

A shallow embedding of the program: `read_file`, `calculate_sum` and `main`
with its tree of four processes (Root, FirstChild, Grandchild, SecondChild)
joined by three pipes.

Modelling conventions.
* A C `int` is an `Int` kept in the signed 32-bit range; every `int`
  addition is followed by `toInt32` (two's-complement wrap-around).
* A stream is the list of characters not yet consumed.
* What the environment decides (whether a file opens, whether `malloc`,
  `pipe`, `fork`, `write`, `read` succeed, what an unassigned local holds)
  is a field of `Env`.
* Every process yields the list of `Event`s it performs, in program order.
  A pipe carries at most one integer, written by one fixed role, so what
  Root reads from a pipe is what that role's trace wrote into it.
-/

namespace TallerFork

/-! ## Machine integers -/

/-- Reduction of an integer modulo `2^32` into the signed 32-bit range. -/
def toInt32 (x : Int) : Int := (x + 2147483648) % 4294967296 - 2147483648

/-! ## Formatted input: `fscanf(file, "%d", ...)` and `atoi` -/

/-- C `isspace` in the "C" locale. -/
def isSpace (c : Char) : Bool :=
  c = ' ' || c = '\t' || c = '\n' || c = '\x0b' || c = '\x0c' || c = '\r'

/-- C `isdigit`. -/
def isDigit (c : Char) : Bool := decide ('0' ≤ c) && decide (c ≤ '9')

/-- Value of a decimal digit character. -/
def digitVal (c : Char) : Int := (c.toNat : Int) - 48

/-- Accumulates the maximal run of decimal digits at the head of the stream:
returns the accumulated value and the rest of the stream. -/
def scanDigits : Int → List Char → Int × List Char
  | acc, [] => (acc, [])
  | acc, c :: cs => if isDigit c then scanDigits (acc * 10 + digitVal c) cs else (acc, c :: cs)

/-- The conversion after leading white space: an optional sign, then at least
one digit.  `none` is a matching failure or end of input. -/
def scanSigned : List Char → Option (Int × List Char)
  | [] => none
  | c :: cs =>
    if c = '-' then
      match cs with
      | [] => none
      | d :: ds => if isDigit d then
          let r := scanDigits 0 (d :: ds)
          some (toInt32 (-r.1), r.2)
        else none
    else if c = '+' then
      match cs with
      | [] => none
      | d :: ds => if isDigit d then
          let r := scanDigits 0 (d :: ds)
          some (toInt32 r.1, r.2)
        else none
    else if isDigit c then
      let r := scanDigits 0 (c :: cs)
      some (toInt32 r.1, r.2)
    else none

/-- One `fscanf(file, "%d", &x)`: skips white space, then converts a signed
decimal integer.  `some (x, rest)` when the call returns 1, `none` when it
returns 0 or `EOF`.  A value outside the range of `int` is stored wrapped. -/
def fscanf_d (stream : List Char) : Option (Int × List Char) :=
  scanSigned (stream.dropWhile isSpace)

/-- C `atoi`: the leading integer of the string, 0 when there is none. -/
def atoi (s : String) : Int :=
  match fscanf_d s.toList with
  | some (v, _) => v
  | none => 0

/-! ## Events, endpoints and the environment -/

/-- The four roles of the process tree. -/
inductive Role
  | Root | FirstChild | Grandchild | SecondChild
  deriving DecidableEq

/-- The three pipes `pipe_grandchild`, `pipe_second`, `pipe_first`. -/
inductive Pipe
  | grandchild | second | first
  deriving DecidableEq

/-- The six pipe endpoints; `grandchild0` is `pipe_grandchild[0]`, the read end,
and `grandchild1` is `pipe_grandchild[1]`, the write end, and so on. -/
inductive Fd
  | grandchild0 | grandchild1 | second0 | second1 | first0 | first1
  deriving DecidableEq, Fintype

/-- What a process does, one system or library call at a time.  For `perror`
the text is the message passed to it (the system's error text is left out);
`undefined` is a read outside a buffer, after which nothing is known. -/
inductive Event
  | fopen (filename : String) (ok : Bool)
  | fclose (filename : String)
  | stderr (text : String)
  | stdout (text : String)
  | pipe (p : Pipe) (ok : Bool)
  | fork (child : Role) (ok : Bool)
  | close (fd : Fd)
  | write (fd : Fd) (value : Int) (ok : Bool)
  | read (fd : Fd) (got : Option Int)
  | wait
  | exit (status : Int)
  | undefined
  deriving DecidableEq

/-- Everything the program does not decide itself. -/
structure Env where
  /-- Outcome of `fopen(name, "r")`: the content, `none` when it cannot be opened. -/
  files : String → Option (List Char)
  /-- Whether the `malloc` of the k-th call of `read_file` succeeds. -/
  mallocOk : Nat → Bool
  /-- Whether `pipe` succeeds on each pipe. -/
  pipeOk : Pipe → Bool
  /-- Whether the `fork` creating each role succeeds. -/
  forkOk : Role → Bool
  /-- Whether the `write` into each pipe transfers its integer. -/
  writeOk : Pipe → Bool
  /-- Whether the `read` from each pipe transfers an integer that was written. -/
  readOk : Pipe → Bool
  /-- What Root's locals `sumA`, `sumB`, `total_sum` hold before any assignment. -/
  garbage : Pipe → Int

def EXIT_SUCCESS : Int := 0

def EXIT_FAILURE : Int := 1

/-! ## `read_file` -/

/-- The loop `for (i = 0; i < n; i++) if (fscanf(file, "%d", &array[i]) != 1) ...`:
`remaining` iterations are left, `array` holds the `i` integers stored so far.
Returns the filled array, or the index at which `fscanf` did not return 1. -/
def read_loop : (remaining : Nat) → (i : Nat) → (array : List Int) → (stream : List Char) →
    Except Nat (List Int)
  | 0, _, array, _ => .ok array
  | k + 1, i, array, stream =>
    match fscanf_d stream with
    | none => .error i
    | some (v, rest) => read_loop k (i + 1) (array ++ [v]) rest

/-- What `read_file` hands back: `*success`, the returned pointer (`none` is
`NULL`) and the calls it made. -/
structure ReadResult where
  success : Int
  array : Option (List Int)
  events : List Event

/-- Embeds `int *read_file(const char *filename, int n, int *success)`; `call` is the
number of the call (0 for the first file, 1 for the second). -/
def read_file (env : Env) (call : Nat) (filename : String) (n : Int) : ReadResult :=
  match env.files filename with
  | none =>
    { success := 0, array := none,
      events := [.fopen filename false, .stderr "Error al abrir el archivo"] }
  | some content =>
    if env.mallocOk call = false then
      { success := 0, array := none,
        events := [.fopen filename true, .stderr "Fallo en la asignación de memoria",
                   .fclose filename] }
    else
      match read_loop n.toNat 0 [] content with
      | .error i =>
        { success := 0, array := none,
          events := [.fopen filename true,
                     .stderr ("Error al leer el entero " ++ toString i ++ " de " ++ filename ++ "\n"),
                     .fclose filename] }
      | .ok array =>
        { success := 1, array := some array,
          events := [.fopen filename true, .fclose filename] }

/-! ## `calculate_sum` -/

/-- State of the loop of `calculate_sum`: the memory behind `array`, the index
and the accumulator. -/
structure SumState where
  array : List Int
  i : Nat
  sum : Int
  deriving DecidableEq

/-- One iteration `sum += array[i]; i++`.  `none` when `array[i]` lies outside
the buffer (undefined behaviour). -/
def sum_step (s : SumState) : Option SumState :=
  match s.array[s.i]? with
  | none => none
  | some a => some { array := s.array, i := s.i + 1, sum := toInt32 (s.sum + a) }

/-- The loop `for (i = 0; i < n; i++) sum += array[i];` with `remaining`
iterations left. -/
def sum_loop : (remaining : Nat) → SumState → Option SumState
  | 0, s => some s
  | k + 1, s =>
    match sum_step s with
    | none => none
    | some s1 => sum_loop k s1

/-- The state in which `calculate_sum(array, n)` leaves its loop. -/
def calculate_sum_run (array : List Int) (n : Int) : Option SumState :=
  sum_loop n.toNat { array := array, i := 0, sum := 0 }

/-- Embeds `int calculate_sum(int *array, int n)`: the value returned. -/
def calculate_sum (array : List Int) (n : Int) : Option Int :=
  (calculate_sum_run array n).map (fun s => s.sum)

/-- FirstChild's `calculate_sum(array00, N1) + calculate_sum(array01, N2)`. -/
def first_child_total (array00 : List Int) (N1 : Int) (array01 : List Int) (N2 : Int) :
    Option Int :=
  match calculate_sum array00 N1, calculate_sum array01 N2 with
  | some a, some b => some (toInt32 (a + b))
  | _, _ => none

/-! ## `main` and the four roles -/

/-- The traces of one run: Root's, and each spawned role's (`none` when the
role was never created). -/
structure Run where
  root : List Event
  firstChild : Option (List Event)
  grandchild : Option (List Event)
  secondChild : Option (List Event)
  deriving DecidableEq

/-- A run in which Root stops before its first `fork`. -/
def Run.rootOnly (t : List Event) : Run :=
  { root := t, firstChild := none, grandchild := none, secondChild := none }

/-- Root's first `printf`. -/
def printf_sumA (file00 : String) (sumA : Int) : String :=
  "Suma del archivo " ++ file00 ++ " (Nieto): " ++ toString sumA ++ "\n"

/-- Root's second `printf`. -/
def printf_sumB (file01 : String) (sumB : Int) : String :=
  "Suma del archivo " ++ file01 ++ " (Segundo hijo): " ++ toString sumB ++ "\n"

/-- Root's third `printf`. -/
def printf_total (total_sum : Int) : String :=
  "Suma total (Primer hijo): " ++ toString total_sum ++ "\n"

/-- Lines 145-159: the branch `pid_grand == 0`. -/
def grandchild_role (env : Env) (array00 : List Int) (N1 : Int) : List Event :=
  [.close .second0, .close .second1, .close .first1, .close .grandchild0] ++
  match calculate_sum array00 N1 with
  | none => [.undefined]
  | some sumA =>
    [.write .grandchild1 sumA (env.writeOk .grandchild), .close .grandchild1, .exit EXIT_SUCCESS]

/-- Lines 168-182: the branch `pid2 == 0`. -/
def second_child_role (env : Env) (array01 : List Int) (N2 : Int) : List Event :=
  [.close .grandchild0, .close .grandchild1, .close .first1, .close .second0] ++
  match calculate_sum array01 N2 with
  | none => [.undefined]
  | some sumB =>
    [.write .second1 sumB (env.writeOk .second), .close .second1, .exit EXIT_SUCCESS]

/-- Lines 135-143, 161-166 and 184-201: the branch `pid1 == 0`, outside its two
children's branches. -/
def first_child_role (env : Env) (array00 : List Int) (N1 : Int) (array01 : List Int)
    (N2 : Int) : List Event :=
  [.close .first0, .fork .Grandchild (env.forkOk .Grandchild)] ++
  if env.forkOk .Grandchild = false then
    [.stderr "Fallo en el fork", .exit EXIT_FAILURE]
  else
    [.fork .SecondChild (env.forkOk .SecondChild)] ++
    if env.forkOk .SecondChild = false then
      [.stderr "Fallo en el fork", .exit EXIT_FAILURE]
    else
      match first_child_total array00 N1 array01 N2 with
      | none => [.undefined]
      | some total_sum =>
        [.write .first1 total_sum (env.writeOk .first), .close .first1,
         .close .grandchild0, .close .grandchild1, .close .second0, .close .second1,
         .wait, .wait, .exit EXIT_SUCCESS]

/-- The integer a successful `write` on `fd` put into its pipe, if any. -/
def written (fd : Fd) : List Event → Option Int
  | [] => none
  | .write fd1 v true :: es => if fd1 = fd then some v else written fd es
  | _ :: es => written fd es

/-- Root's `read` from pipe `p`, whose write end is `wfd` and whose writer has
trace `writer`: the integer written, `none` when nothing is transferred (the
writer does not exist, wrote nothing, or the `read` fails). -/
def receive (env : Env) (p : Pipe) (wfd : Fd) (writer : Option (List Event)) : Option Int :=
  if env.readOk p = true then writer.bind (written wfd) else none

/-- Line 121: `pipe(pipe_grandchild) == -1 || pipe(pipe_second) == -1 ||
pipe(pipe_first) == -1`, left to right with short circuit.  The flag tells
whether all three were created. -/
def create_pipes (env : Env) : List Event × Bool :=
  if env.pipeOk .grandchild = false then ([.pipe .grandchild false], false)
  else if env.pipeOk .second = false then ([.pipe .grandchild true, .pipe .second false], false)
  else if env.pipeOk .first = false then
    ([.pipe .grandchild true, .pipe .second true, .pipe .first false], false)
  else ([.pipe .grandchild true, .pipe .second true, .pipe .first true], true)

/-- Lines 128-230: the process tree, once both arrays are loaded and the three
pipes exist.  `before` is what Root did up to there. -/
def spawn_tree (env : Env) (before : List Event) (file00 file01 : String)
    (array00 : List Int) (N1 : Int) (array01 : List Int) (N2 : Int) : Run :=
  if env.forkOk .FirstChild = false then
    Run.rootOnly (before ++ [.fork .FirstChild false, .stderr "Fallo en el fork",
                             .exit EXIT_FAILURE])
  else
    let firstChild := first_child_role env array00 N1 array01 N2
    let grandchild : Option (List Event) :=
      if env.forkOk .Grandchild = true then some (grandchild_role env array00 N1) else none
    let secondChild : Option (List Event) :=
      if env.forkOk .Grandchild = true ∧ env.forkOk .SecondChild = true then
        some (second_child_role env array01 N2)
      else none
    let rA := receive env .grandchild .grandchild1 grandchild
    let rB := receive env .second .second1 secondChild
    let rT := receive env .first .first1 (some firstChild)
    let sumA := rA.getD (env.garbage .grandchild)
    let sumB := rB.getD (env.garbage .second)
    let total_sum := rT.getD (env.garbage .first)
    { root := before ++
        [.fork .FirstChild true,
         .close .grandchild1, .close .second1, .close .first1,
         .read .grandchild0 rA, .read .second0 rB, .read .first0 rT,
         .close .grandchild0, .close .second0, .close .first0,
         .stdout (printf_sumA file00 sumA),
         .stdout (printf_sumB file01 sumB),
         .stdout (printf_total total_sum),
         .wait, .exit 0],
      firstChild := some firstChild,
      grandchild := grandchild,
      secondChild := secondChild }

/-- Embeds `int main(int argc, char *argv[])`; `argc` is `argv.length`. -/
def main (env : Env) (argv : List String) : Run :=
  match argv with
  | [_, arg1, file00, arg3, file01] =>
    let N1 := atoi arg1
    let N2 := atoi arg3
    if N1 ≤ 0 ∨ N2 ≤ 0 then
      Run.rootOnly [.stderr "N1 y N2 deben ser enteros positivos\n", .exit EXIT_FAILURE]
    else
      let r00 := read_file env 0 file00 N1
      if r00.success = 0 then Run.rootOnly (r00.events ++ [.exit EXIT_FAILURE])
      else
        let r01 := read_file env 1 file01 N2
        if r01.success = 0 then
          Run.rootOnly (r00.events ++ r01.events ++ [.exit EXIT_FAILURE])
        else
          let pipes := create_pipes env
          if pipes.2 = false then
            Run.rootOnly (r00.events ++ r01.events ++ pipes.1 ++
              [.stderr "Fallo al crear las tuberías", .exit EXIT_FAILURE])
          else
            spawn_tree env (r00.events ++ r01.events ++ pipes.1) file00 file01
              (r00.array.getD []) N1 (r01.array.getD []) N2
  | _ =>
    Run.rootOnly [.stderr ("Uso: " ++ argv.headD "(null)" ++ " N1 archivo00 N2 archivo01\n"),
                  .exit EXIT_FAILURE]

/-! ## Observations on a run -/

/-- The traces of the processes that exist in a run, Root first. -/
def Run.processes (r : Run) : List (List Event) :=
  r.root :: (r.firstChild.toList ++ r.grandchild.toList ++ r.secondChild.toList)

/-- What a trace prints on standard output, one entry per `printf`. -/
def stdoutOf : List Event → List String
  | [] => []
  | .stdout text :: es => text :: stdoutOf es
  | _ :: es => stdoutOf es

/-- Standard output of the whole run. -/
def Run.stdout (r : Run) : List String := (r.processes.map stdoutOf).flatten

/-- The status with which a trace ends (`exit(status)` or `return status` from
`main`); `none` when it does not end by exiting. -/
def exitStatus (t : List Event) : Option Int :=
  match t.getLast? with
  | some (.exit status) => some status
  | _ => none

/-- The exit status of the program: that of the Root process. -/
def Run.status (r : Run) : Option Int := exitStatus r.root

/-- Number of calls of `fopen` in a trace. -/
def countFopen (t : List Event) : Nat :=
  t.countP (fun e => match e with | .fopen _ _ => true | _ => false)

/-- Number of calls of `pipe` in a trace. -/
def countPipe (t : List Event) : Nat :=
  t.countP (fun e => match e with | .pipe _ _ => true | _ => false)

/-- Number of calls of `fork` in a trace. -/
def countFork (t : List Event) : Nat :=
  t.countP (fun e => match e with | .fork _ _ => true | _ => false)

/-- The environment of the examples: files `a` and `b` with the given
contents, every call succeeding. -/
def envOf (a b : String) : Env :=
  { files := fun name => if name = "a" then some a.toList else if name = "b" then some b.toList
                         else none,
    mallocOk := fun _ => true, pipeOk := fun _ => true, forkOk := fun _ => true,
    writeOk := fun _ => true, readOk := fun _ => true, garbage := fun _ => 0 }

/-- The environment of the examples with the two files named at will. -/
def envNamed (name00 content00 name01 content01 : String) : Env :=
  { files := fun name => if name = name00 then some content00.toList
                         else if name = name01 then some content01.toList else none,
    mallocOk := fun _ => true, pipeOk := fun _ => true, forkOk := fun _ => true,
    writeOk := fun _ => true, readOk := fun _ => true, garbage := fun _ => 0 }

/-- A valid run: four arguments with positive counts, both arrays loaded (as
`A` and `B`), every `pipe` and `fork` succeeding, every `write` and `read`
transferring its integer. -/
structure ValidRun (env : Env) (arg1 file00 arg3 file01 : String) (A B : List Int) : Prop where
  N1_pos : 0 < atoi arg1
  N2_pos : 0 < atoi arg3
  load00 : (read_file env 0 file00 (atoi arg1)).array = some A
  load01 : (read_file env 1 file01 (atoi arg3)).array = some B
  pipes : ∀ p, env.pipeOk p = true
  forks : ∀ r, env.forkOk r = true
  writes : ∀ p, env.writeOk p = true
  reads : ∀ p, env.readOk p = true

/-! ## Endpoint discipline of a role -/

/-- Whether an event is a blocking operation of the protocol: a pipe read, a
pipe write or a wait. -/
def isBlocking : Event → Bool
  | .read _ _ => true
  | .write _ _ _ => true
  | .wait => true
  | _ => false

/-- Whether an event is a `wait`. -/
def isWait : Event → Bool
  | .wait => true
  | _ => false

/-- The events of a trace before it forks `child`. -/
def beforeFork (child : Role) : List Event → List Event
  | [] => []
  | e :: es => if e = .fork child true then [] else e :: beforeFork child es

/-- What the process of a role has done since `main` started: what its
ancestors did before forking it (a forked process starts with its parent's
descriptors as they are at the `fork`), then its own trace. -/
def Run.history (r : Run) : Role → Option (List Event)
  | .Root => some r.root
  | .FirstChild => r.firstChild.map (fun f => beforeFork .FirstChild r.root ++ f)
  | .Grandchild =>
    match r.firstChild, r.grandchild with
    | some f, some g => some (beforeFork .FirstChild r.root ++ beforeFork .Grandchild f ++ g)
    | _, _ => none
  | .SecondChild =>
    match r.firstChild, r.secondChild with
    | some f, some c => some (beforeFork .FirstChild r.root ++ beforeFork .SecondChild f ++ c)
    | _, _ => none

/-- The endpoints each role is meant to use: Root reads once from each pipe,
every other role writes once into its own pipe. -/
def designated : Role → List Fd
  | .Root => [.grandchild0, .second0, .first0]
  | .FirstChild => [.first1]
  | .Grandchild => [.grandchild1]
  | .SecondChild => [.second1]

/-- Whether a trace reads from or writes into `fd`. -/
def usesFd (fd : Fd) (t : List Event) : Bool :=
  t.any (fun e => match e with
    | .read f _ => decide (f = fd)
    | .write f _ _ => decide (f = fd)
    | _ => false)

/-- Whether a trace closes `fd` before its first event satisfying `stop`. -/
def closedBefore (stop : Event → Bool) (fd : Fd) (t : List Event) : Bool :=
  (t.takeWhile (fun e => !stop e)).contains (.close fd)

/-- The invariant of the specification on one role: every endpoint outside the
designated ones is closed before the first blocking operation. -/
def closesUnusedFirst (role : Role) (t : List Event) : Prop :=
  ∀ fd : Fd, fd ∉ designated role → closedBefore isBlocking fd t = true

instance (role : Role) (t : List Event) : Decidable (closesUnusedFirst role t) := by
  unfold closesUnusedFirst; infer_instance

/-! ## The input format, as the specification words it

"Whitespace-separated ASCII decimal integers": the tokens of a file are its
maximal runs of characters that are not white space; a token is a well-formed
integer when it is an optional sign followed by one or more decimal digits. -/

/-- The whitespace-separated tokens of a file content. -/
def tokens (content : List Char) : List (List Char) :=
  (content.splitOnP isSpace).filter (fun t => !t.isEmpty)

/-- Whether a run of characters is one or more decimal digits. -/
def isDigits (ds : List Char) : Bool := !ds.isEmpty && ds.all isDigit

/-- Whether a token is a well-formed decimal integer: an optional sign, then
one or more digits, and nothing else. -/
def isIntToken : List Char → Bool
  | [] => false
  | c :: cs => if c = '-' ∨ c = '+' then isDigits cs else isDigits (c :: cs)

/-- The number a run of decimal digits denotes. -/
def decimalValue (ds : List Char) : Int := ds.foldl (fun acc c => acc * 10 + digitVal c) 0

/-- The integer a well-formed token denotes. -/
def tokenValue : List Char → Int
  | [] => 0
  | c :: cs => if c = '-' then -decimalValue cs else if c = '+' then decimalValue cs
               else decimalValue (c :: cs)

/-- Whether a token fits a 32-bit signed `int`. -/
def fitsInt (t : List Char) : Prop := -2147483648 ≤ tokenValue t ∧ tokenValue t < 2147483648

/-- Whether a token begins like an integer: an optional sign, then a digit. -/
def startsInteger : List Char → Bool
  | [] => false
  | c :: cs => if c = '-' ∨ c = '+' then (match cs with | [] => false | d :: _ => isDigit d)
               else isDigit c

/-- The well-formed integers at the head of a file: its leading tokens that are
well-formed integers. -/
def leadingIntegers (content : List Char) : List (List Char) :=
  (tokens content).takeWhile isIntToken

/-- Cuts the numeric head off a token: an optional sign and the digits that
follow it, as many as there are and at least one.  Returns the head and what is
left of the token; `none` when the token does not begin like an integer. -/
def numericHead : List Char → Option (List Char × List Char)
  | [] => none
  | c :: cs =>
    if c = '-' ∨ c = '+' then
      if (cs.takeWhile isDigit).isEmpty then none
      else some (c :: cs.takeWhile isDigit, cs.dropWhile isDigit)
    else if isDigit c then some ((c :: cs).takeWhile isDigit, (c :: cs).dropWhile isDigit)
    else none

/-- The integers a list of tokens yields to a reading from left to right: a
well-formed integer yields itself; a malformed token yields its numeric heads,
cut from its front one after the other, and the reading ends at the first piece
that does not begin like an integer.  `fuel` bounds the number of integers. -/
def integersOfTokens : (fuel : Nat) → List (List Char) → List (List Char)
  | 0, _ => []
  | _ + 1, [] => []
  | fuel + 1, t :: ts =>
    match numericHead t with
    | none => []
    | some (h, r) => h :: integersOfTokens fuel (if r.isEmpty then ts else r :: ts)

/-- The integers a file content yields; every integer takes at least one
character, so the length of the content is fuel enough. -/
def integersRead (content : List Char) : List (List Char) :=
  integersOfTokens content.length (tokens content)

/-- The content runs short of `n` integers: it yields fewer than `n`. -/
def runsShort (content : List Char) (n : Int) : Prop :=
  ((integersRead content).length : Int) < n

/-- Number of characters in a list of tokens. -/
def totalLength (ts : List (List Char)) : Nat := (ts.map List.length).sum

/-- The stream does not begin with a digit. -/
def stopsDigits (rest : List Char) : Prop := ∀ c ∈ rest.head?, isDigit c = false

/-! ## Lemmas on machine integers -/

theorem toInt32_range (x : Int) : -2147483648 ≤ toInt32 x ∧ toInt32 x < 2147483648 := by
  unfold toInt32; omega

theorem toInt32_congr (x : Int) : (toInt32 x - x) % 4294967296 = 0 := by
  unfold toInt32; omega

theorem toInt32_of_range (x : Int) (h1 : -2147483648 ≤ x) (h2 : x < 2147483648) :
    toInt32 x = x := by
  unfold toInt32; omega

theorem toInt32_add_left (x y : Int) : toInt32 (toInt32 x + y) = toInt32 (x + y) := by
  unfold toInt32; omega

theorem toInt32_add_both (x y : Int) : toInt32 (toInt32 x + toInt32 y) = toInt32 (x + y) := by
  unfold toInt32; omega

/-! ## Lemmas on `calculate_sum` -/

theorem toInt32_idem (x : Int) : toInt32 (toInt32 x) = toInt32 x := by
  unfold toInt32; omega

theorem sum_loop_eq (array : List Int) :
    ∀ (k i : Nat) (sum : Int), i + k ≤ array.length → toInt32 sum = sum →
      sum_loop k { array := array, i := i, sum := sum } =
        some { array := array, i := i + k,
               sum := toInt32 (sum + ((array.drop i).take k).sum) } := by
  intro k
  induction k with
  | zero =>
    intro i sum _ hs
    simp [sum_loop, hs]
  | succ k ih =>
    intro i sum h _
    have hi : i < array.length := by omega
    have hget : array[i]? = some array[i] := List.getElem?_eq_getElem hi
    have hdrop : array.drop i = array[i] :: array.drop (i + 1) := List.drop_eq_getElem_cons hi
    simp only [sum_loop, sum_step, hget]
    rw [ih (i + 1) _ (by omega) (toInt32_idem _), hdrop]
    simp only [List.take_succ_cons, List.sum_cons]
    rw [toInt32_add_left]
    congr 2
    · omega
    · congr 1; ring

theorem calculate_sum_run_eq (array : List Int) (n : Int) (hn : (array.length : Int) = n) :
    calculate_sum_run array n =
      some { array := array, i := array.length, sum := toInt32 array.sum } := by
  have hk : n.toNat = array.length := by omega
  unfold calculate_sum_run
  rw [hk, sum_loop_eq array array.length 0 0 (by omega) (by decide)]
  simp

theorem calculate_sum_eq (array : List Int) (n : Int) (hn : (array.length : Int) = n) :
    calculate_sum array n = some (toInt32 array.sum) := by
  simp [calculate_sum, calculate_sum_run_eq array n hn]

/-! ## Claims on `calculate_sum` -/

/-- C2: for an array of length `n`, `calculate_sum(array, n)` runs its loop to
the end (no failure), leaves the array as it was, and returns the sum of the
elements reduced modulo `2^32` into the signed 32-bit range. -/
theorem calculate_sum_wraps (array : List Int) (n : Int) (hn : (array.length : Int) = n) :
    ∃ final : SumState,
      calculate_sum_run array n = some final ∧
      final.array = array ∧
      calculate_sum array n = some final.sum ∧
      final.sum = toInt32 array.sum ∧
      -2147483648 ≤ final.sum ∧ final.sum < 2147483648 ∧
      (final.sum - array.sum) % 4294967296 = 0 :=
  ⟨_, calculate_sum_run_eq array n hn, rfl, calculate_sum_eq array n hn, rfl,
    (toInt32_range _).1, (toInt32_range _).2, toInt32_congr _⟩

/-- Witness of C2 where the sum overflows: `2147483647 + 1` wraps to `-2147483648`. -/
theorem calculate_sum_wraps_witness :
    ((([2147483647, 1] : List Int).length : Int) = 2) ∧
    ∃ final : SumState,
      calculate_sum_run [2147483647, 1] 2 = some final ∧
      final.array = [2147483647, 1] ∧
      calculate_sum [2147483647, 1] 2 = some final.sum ∧
      final.sum = toInt32 ([2147483647, 1] : List Int).sum ∧
      -2147483648 ≤ final.sum ∧ final.sum < 2147483648 ∧
      (final.sum - ([2147483647, 1] : List Int).sum) % 4294967296 = 0 :=
  ⟨by decide, calculate_sum_wraps [2147483647, 1] 2 (by decide)⟩

/-- C10: `calculate_sum` maps concatenation to wrap-around addition, and the
total FirstChild computes is `calculate_sum` of the concatenated arrays, which
is the sum of all `N1 + N2` elements reduced into the signed 32-bit range. -/
theorem calculate_sum_append (A B : List Int) (N1 N2 : Int)
    (h1 : (A.length : Int) = N1) (h2 : (B.length : Int) = N2) :
    ∃ a b : Int,
      calculate_sum A N1 = some a ∧ calculate_sum B N2 = some b ∧
      calculate_sum (A ++ B) (N1 + N2) = some (toInt32 (a + b)) ∧
      first_child_total A N1 B N2 = calculate_sum (A ++ B) (N1 + N2) ∧
      first_child_total A N1 B N2 = some (toInt32 (A ++ B).sum) := by
  have hab : (((A ++ B).length : Nat) : Int) = N1 + N2 := by
    rw [List.length_append]; omega
  have e : calculate_sum (A ++ B) (N1 + N2) = some (toInt32 (toInt32 A.sum + toInt32 B.sum)) := by
    rw [calculate_sum_eq _ _ hab, List.sum_append, toInt32_add_both]
  refine ⟨toInt32 A.sum, toInt32 B.sum, calculate_sum_eq A N1 h1, calculate_sum_eq B N2 h2,
    e, ?_, ?_⟩
  · rw [e]; simp [first_child_total, calculate_sum_eq A N1 h1, calculate_sum_eq B N2 h2]
  · simp [first_child_total, calculate_sum_eq A N1 h1, calculate_sum_eq B N2 h2,
      List.sum_append, toInt32_add_both]

/-- Witness of C10 where the first sum overflows on its own: `A = [2147483647, 1]`
sums to `-2147483648`, and with `B = [-1]` the total is `2147483647`. -/
theorem calculate_sum_append_witness :
    ((([2147483647, 1] : List Int).length : Int) = 2) ∧ ((([-1] : List Int).length : Int) = 1) ∧
    ∃ a b : Int,
      calculate_sum [2147483647, 1] 2 = some a ∧ calculate_sum [-1] 1 = some b ∧
      calculate_sum ([2147483647, 1] ++ [-1]) (2 + 1) = some (toInt32 (a + b)) ∧
      first_child_total [2147483647, 1] 2 [-1] 1 = calculate_sum ([2147483647, 1] ++ [-1]) (2 + 1) ∧
      first_child_total [2147483647, 1] 2 [-1] 1 =
        some (toInt32 (([2147483647, 1] : List Int) ++ [-1]).sum) :=
  ⟨by decide, by decide, calculate_sum_append [2147483647, 1] [-1] 2 1 (by decide) (by decide)⟩

/-! ## Lemmas on tokens and on the scanner -/

theorem splitOnP_unfold (p : Char → Bool) (s : List Char) :
    s.splitOnP p = s.takeWhile (fun c => !p c) ::
      (match s.dropWhile (fun c => !p c) with
       | [] => []
       | _ :: r => r.splitOnP p) := by
  induction s with
  | nil => simp
  | cons x xs ih =>
    rw [List.splitOnP_cons]
    by_cases h : p x = true
    · simp [h]
    · have h1 : p x = false := by simpa using h
      rw [if_neg h, ih]
      simp [h1, List.takeWhile_cons, List.dropWhile_cons]

theorem tokens_nil : tokens [] = [] := by
  simp [tokens]

theorem tokens_cons_space (c : Char) (cs : List Char) (h : isSpace c = true) :
    tokens (c :: cs) = tokens cs := by
  simp [tokens, List.splitOnP_cons, h]

theorem tokens_dropWhile (s : List Char) : tokens (s.dropWhile isSpace) = tokens s := by
  induction s with
  | nil => rfl
  | cons c cs ih =>
    by_cases h : isSpace c = true
    · rw [List.dropWhile_cons_of_pos h, ih, tokens_cons_space c cs h]
    · rw [List.dropWhile_cons_of_neg h]

/-- The first token of a content that begins with a character that is not white
space, and the tokens after it. -/
theorem tokens_cons_nonspace (c : Char) (cs : List Char) (h : isSpace c = false) :
    tokens (c :: cs) = (c :: cs).takeWhile (fun x => !isSpace x) ::
      tokens ((c :: cs).dropWhile (fun x => !isSpace x)) := by
  have hne : ((c :: cs).takeWhile (fun x => !isSpace x)) ≠ [] := by
    simp [List.takeWhile_cons, h]
  unfold tokens
  rw [splitOnP_unfold isSpace (c :: cs)]
  rw [List.filter_cons_of_pos (by simpa using hne)]
  congr 1
  cases hd : (c :: cs).dropWhile (fun x => !isSpace x) with
  | nil => simp
  | cons y r =>
    have hy : isSpace y = true := by
      have := List.head_dropWhile_not (fun x => !isSpace x) (c :: cs) (by rw [hd]; simp)
      simpa [hd] using this
    simp [List.splitOnP_cons, hy]

theorem isDigit_of_isSpace (c : Char) (h : isSpace c = true) : isDigit c = false := by
  simp only [isSpace, Bool.or_eq_true, decide_eq_true_eq] at h
  rcases h with ((((h | h) | h) | h) | h) | h <;> subst h <;> decide

theorem scanDigits_append (rest : List Char) (hrest : stopsDigits rest) :
    ∀ (ds : List Char) (acc : Int), ds.all isDigit = true →
      scanDigits acc (ds ++ rest) = (ds.foldl (fun a c => a * 10 + digitVal c) acc, rest) := by
  intro ds
  induction ds with
  | nil =>
    intro acc _
    cases rest with
    | nil => simp [scanDigits]
    | cons c r =>
      have hc : isDigit c = false := hrest c (by simp)
      simp [scanDigits, hc]
  | cons d ds ih =>
    intro acc h
    simp only [List.all_cons, Bool.and_eq_true] at h
    simp [scanDigits, h.1, ih _ h.2]

theorem scanDigits_digits (rest : List Char) (hrest : stopsDigits rest) (ds : List Char)
    (h : isDigits ds = true) :
    ∃ d tl, ds = d :: tl ∧ isDigit d = true ∧
      scanDigits 0 (ds ++ rest) = (decimalValue ds, rest) := by
  cases ds with
  | nil => simp [isDigits] at h
  | cons d tl =>
    have hall : (d :: tl).all isDigit = true := by
      simp only [isDigits, Bool.and_eq_true] at h
      exact h.2
    have hd : isDigit d = true := by
      simp only [List.all_cons, Bool.and_eq_true] at hall
      exact hall.1
    exact ⟨d, tl, rfl, hd, scanDigits_append rest hrest (d :: tl) 0 hall⟩

/-- On a well-formed token followed by something that is not a digit, the
conversion yields the token's value (wrapped into `int`) and stops after it. -/
theorem scanSigned_token (t rest : List Char) (ht : isIntToken t = true)
    (hrest : stopsDigits rest) :
    scanSigned (t ++ rest) = some (toInt32 (tokenValue t), rest) := by
  cases t with
  | nil => simp [isIntToken] at ht
  | cons c cs =>
    by_cases hm : c = '-'
    · subst hm
      simp only [isIntToken, true_or, if_true] at ht
      obtain ⟨d, tl, rfl, hd, hscan⟩ := scanDigits_digits rest hrest cs ht
      simp only [List.cons_append] at hscan
      simp [scanSigned, tokenValue, hd, hscan]
    · by_cases hp : c = '+'
      · subst hp
        simp only [isIntToken, or_true, if_true] at ht
        obtain ⟨d, tl, rfl, hd, hscan⟩ := scanDigits_digits rest hrest cs ht
        simp only [List.cons_append] at hscan
        simp [scanSigned, tokenValue, hd, hscan]
      · simp only [isIntToken, hm, hp, or_self, if_false] at ht
        obtain ⟨d, tl, heq, hd, hscan⟩ := scanDigits_digits rest hrest (c :: cs) ht
        simp only [List.cons.injEq] at heq
        obtain ⟨rfl, rfl⟩ := heq
        simp only [List.cons_append] at hscan
        simp [scanSigned, tokenValue, hm, hp, hd, hscan]

/-- On a token that does not begin like an integer, the conversion fails. -/
theorem scanSigned_reject (t rest : List Char) (hne : t ≠ [])
    (ht : startsInteger t = false) (hrest : stopsDigits rest) :
    scanSigned (t ++ rest) = none := by
  cases t with
  | nil => exact absurd rfl hne
  | cons c cs =>
    have hnext : ∀ d ds, cs ++ rest = d :: ds → (c = '-' ∨ c = '+') → isDigit d = false := by
      intro d ds hcs hsign
      cases cs with
      | nil =>
        simp only [List.nil_append] at hcs
        exact hrest d (by simp [hcs])
      | cons e es =>
        simp only [List.cons_append, List.cons.injEq] at hcs
        simp only [startsInteger, hsign, if_true] at ht
        rw [← hcs.1]; exact ht
    by_cases hm : c = '-'
    · subst hm
      cases hcs : cs ++ rest with
      | nil => simp [scanSigned, hcs]
      | cons d ds => simp [scanSigned, hcs, hnext d ds hcs (Or.inl rfl)]
    · by_cases hp : c = '+'
      · subst hp
        cases hcs : cs ++ rest with
        | nil => simp [scanSigned, hcs]
        | cons d ds => simp [scanSigned, hcs, hnext d ds hcs (Or.inr rfl)]
      · simp only [startsInteger, hm, hp, or_self, if_false] at ht
        simp [scanSigned, hm, hp, ht]

/-- How the first token of a content is cut out: after the leading white space
either nothing is left, or a token `t` followed by `rest`. -/
theorem first_token (s : List Char) :
    (s.dropWhile isSpace = [] ∧ tokens s = []) ∨
    ∃ t rest, s.dropWhile isSpace = t ++ rest ∧ t ≠ [] ∧ tokens s = t :: tokens rest ∧
      stopsDigits rest := by
  cases hd : s.dropWhile isSpace with
  | nil =>
    left
    refine ⟨rfl, ?_⟩
    rw [← tokens_dropWhile, hd, tokens_nil]
  | cons c cs =>
    right
    have hc : isSpace c = false := by
      have := List.head_dropWhile_not isSpace s (by rw [hd]; simp)
      simpa [hd] using this
    refine ⟨(c :: cs).takeWhile (fun x => !isSpace x), (c :: cs).dropWhile (fun x => !isSpace x),
      (List.takeWhile_append_dropWhile _ _).symm, by simp [List.takeWhile_cons, hc], ?_, ?_⟩
    · rw [← tokens_dropWhile, hd, tokens_cons_nonspace c cs hc]
    · intro y hy
      cases hr : (c :: cs).dropWhile (fun x => !isSpace x) with
      | nil => rw [hr] at hy; simp at hy
      | cons z r =>
        rw [hr] at hy
        simp only [List.head?_cons, Option.mem_def, Option.some.injEq] at hy
        subst hy
        have := List.head_dropWhile_not (fun x => !isSpace x) (c :: cs) (by rw [hr]; simp)
        apply isDigit_of_isSpace
        simpa [hr] using this

/-! ## Lemmas on `read_file` -/

/-- When the first `k` tokens are well-formed integers, the loop stores their
values in order and nothing else. -/
theorem read_loop_tokens :
    ∀ (k : Nat) (s : List Char) (i : Nat) (acc : List Int),
      k ≤ (tokens s).length → (∀ t ∈ (tokens s).take k, isIntToken t = true) →
      read_loop k i acc s =
        .ok (acc ++ ((tokens s).take k).map (fun t => toInt32 (tokenValue t))) := by
  intro k
  induction k with
  | zero => intro s i acc _ _; simp [read_loop]
  | succ k ih =>
    intro s i acc hlen hwf
    rcases first_token s with ⟨_, h0⟩ | ⟨t, rest, hdrop, _, htok, hstop⟩
    · rw [h0] at hlen; simp at hlen
    · rw [htok] at hlen hwf ⊢
      simp only [List.length_cons, Nat.add_le_add_iff_right] at hlen
      simp only [List.take_succ_cons, List.mem_cons, forall_eq_or_imp] at hwf
      have hscan : fscanf_d s = some (toInt32 (tokenValue t), rest) := by
        unfold fscanf_d; rw [hdrop]; exact scanSigned_token t rest hwf.1 hstop
      simp only [read_loop, hscan]
      rw [ih rest (i + 1) _ hlen hwf.2]
      simp

theorem numericHead_none (t : List Char) (h : numericHead t = none) :
    startsInteger t = false := by
  cases t with
  | nil => rfl
  | cons c cs =>
    by_cases hs : c = '-' ∨ c = '+'
    · simp only [numericHead, hs, if_true] at h
      cases cs with
      | nil => simp [startsInteger, hs]
      | cons d ds =>
        by_cases hd : isDigit d = true
        · simp [List.takeWhile_cons, hd] at h
        · simp [startsInteger, hs, hd]
    · by_cases hc : isDigit c = true
      · simp [numericHead, hs, hc] at h
      · simp [startsInteger, hs, hc]

theorem stopsDigits_dropWhile (l : List Char) : stopsDigits (l.dropWhile isDigit) := by
  intro y hy
  cases hr : l.dropWhile isDigit with
  | nil => rw [hr] at hy; simp at hy
  | cons z r =>
    rw [hr] at hy
    simp only [List.head?_cons, Option.mem_def, Option.some.injEq] at hy
    subst hy
    have := List.head_dropWhile_not isDigit l (by rw [hr]; simp)
    simpa [hr] using this

theorem isDigits_takeWhile (l : List Char) (h : (l.takeWhile isDigit).isEmpty = false) :
    isDigits (l.takeWhile isDigit) = true := by
  simp [isDigits, h]

/-- A numeric head is a well-formed integer, the token is the head followed by
what is left, and what is left does not begin with a digit. -/
theorem numericHead_some (t hd r : List Char) (h : numericHead t = some (hd, r)) :
    t = hd ++ r ∧ isIntToken hd = true ∧ stopsDigits r ∧ hd ≠ [] := by
  cases t with
  | nil => simp [numericHead] at h
  | cons c cs =>
    by_cases hs : c = '-' ∨ c = '+'
    · simp only [numericHead, hs, if_true] at h
      by_cases he : (cs.takeWhile isDigit).isEmpty = true
      · simp [he] at h
      · have he2 : (cs.takeWhile isDigit).isEmpty = false := by simpa using he
        simp only [he2, Bool.false_eq_true, if_false, Option.some.injEq, Prod.mk.injEq] at h
        obtain ⟨rfl, rfl⟩ := h
        refine ⟨by simp [List.takeWhile_append_dropWhile], ?_, stopsDigits_dropWhile cs, by simp⟩
        simp only [isIntToken, hs, if_true]
        exact isDigits_takeWhile cs he2
    · by_cases hc : isDigit c = true
      · simp only [numericHead, hs, hc, if_true, if_false, Option.some.injEq,
          Prod.mk.injEq] at h
        obtain ⟨rfl, rfl⟩ := h
        refine ⟨(List.takeWhile_append_dropWhile _ _).symm, ?_, stopsDigits_dropWhile _, ?_⟩
        · have hne : ((c :: cs).takeWhile isDigit).isEmpty = false := by
            simp [List.takeWhile_cons, hc]
          have := isDigits_takeWhile (c :: cs) hne
          simp only [List.takeWhile_cons, hc, if_true] at this ⊢
          simp only [isIntToken, hs, if_false]
          exact this
        · simp [List.takeWhile_cons, hc]
      · simp [numericHead, hs, hc] at h

/-- As `first_token`, with what tells a token from what follows it: no
character of the token is white space, and what follows begins with white
space or is empty. -/
theorem first_token_full (s : List Char) :
    (s.dropWhile isSpace = [] ∧ tokens s = []) ∨
    ∃ t rest, s.dropWhile isSpace = t ++ rest ∧ t ≠ [] ∧ tokens s = t :: tokens rest ∧
      (∀ c ∈ t, isSpace c = false) ∧ (∀ c ∈ rest.head?, isSpace c = true) := by
  cases hd : s.dropWhile isSpace with
  | nil =>
    left
    refine ⟨rfl, ?_⟩
    rw [← tokens_dropWhile, hd, tokens_nil]
  | cons c cs =>
    right
    have hc : isSpace c = false := by
      have := List.head_dropWhile_not isSpace s (by rw [hd]; simp)
      simpa [hd] using this
    refine ⟨(c :: cs).takeWhile (fun x => !isSpace x), (c :: cs).dropWhile (fun x => !isSpace x),
      (List.takeWhile_append_dropWhile _ _).symm, by simp [List.takeWhile_cons, hc], ?_, ?_, ?_⟩
    · rw [← tokens_dropWhile, hd, tokens_cons_nonspace c cs hc]
    · intro y hy
      have := List.mem_takeWhile_imp hy
      simpa using this
    · intro y hy
      cases hr : (c :: cs).dropWhile (fun x => !isSpace x) with
      | nil => rw [hr] at hy; simp at hy
      | cons z r =>
        rw [hr] at hy
        simp only [List.head?_cons, Option.mem_def, Option.some.injEq] at hy
        subst hy
        have := List.head_dropWhile_not (fun x => !isSpace x) (c :: cs) (by rw [hr]; simp)
        simpa [hr] using this

/-- A run of characters without white space, followed by white space or by
nothing, is the first token of what it begins. -/
theorem tokens_append_token (r rest : List Char) (hne : r ≠ [])
    (hr : ∀ c ∈ r, isSpace c = false) (hrest : ∀ c ∈ rest.head?, isSpace c = true) :
    (r ++ rest).dropWhile isSpace = r ++ rest ∧ tokens (r ++ rest) = r :: tokens rest := by
  cases r with
  | nil => exact absurd rfl hne
  | cons c cs =>
    have hc : isSpace c = false := hr c (by simp)
    have hall : ∀ a ∈ c :: cs, (fun x => !isSpace x) a = true := by
      intro a ha; simp [hr a ha]
    have htake : rest.takeWhile (fun x => !isSpace x) = [] := by
      cases rest with
      | nil => rfl
      | cons y ys =>
        have hy : isSpace y = true := hrest y (by simp)
        simp [List.takeWhile_cons, hy]
    have hdrop : rest.dropWhile (fun x => !isSpace x) = rest := by
      cases rest with
      | nil => rfl
      | cons y ys =>
        have hy : isSpace y = true := hrest y (by simp)
        simp [List.dropWhile_cons, hy]
    refine ⟨by simp [List.dropWhile_cons, hc], ?_⟩
    have h1 := tokens_cons_nonspace c (cs ++ rest) hc
    rw [← List.cons_append, List.takeWhile_append_of_pos hall,
      List.dropWhile_append_of_pos hall, htake, hdrop, List.append_nil] at h1
    exact h1

theorem totalLength_tokens_le :
    ∀ (n : Nat) (s : List Char), s.length ≤ n → totalLength (tokens s) ≤ s.length := by
  intro n
  induction n with
  | zero =>
    intro s hs
    have : s = [] := List.length_eq_zero.mp (by omega)
    subst this
    simp [tokens_nil, totalLength]
  | succ n ih =>
    intro s hs
    rcases first_token_full s with ⟨_, h0⟩ | ⟨t, rest, hdrop, hne, htok, _, _⟩
    · rw [h0]; simp [totalLength]
    · have hlen : (s.dropWhile isSpace).length ≤ s.length :=
        (List.dropWhile_sublist isSpace).length_le
      have ht : 0 < t.length := List.length_pos.mpr hne
      rw [hdrop, List.length_append] at hlen
      have := ih rest (by omega)
      rw [htok]
      simp only [totalLength, List.map_cons, List.sum_cons] at this ⊢
      omega

/-- One conversion, told on the tokens: it fails when no token is left or the
first one does not begin like an integer; otherwise it stores the value of the
numeric head and goes on with what is left of the token. -/
theorem fscanf_d_tokens (s : List Char) :
    (tokens s = [] ∧ fscanf_d s = none) ∨
    ∃ t ts, tokens s = t :: ts ∧
      ((numericHead t = none ∧ fscanf_d s = none) ∨
       ∃ hd r s1, numericHead t = some (hd, r) ∧
         fscanf_d s = some (toInt32 (tokenValue hd), s1) ∧
         tokens s1 = (if r.isEmpty then ts else r :: ts) ∧
         totalLength (tokens s1) < totalLength (tokens s)) := by
  rcases first_token_full s with ⟨hdrop, h0⟩ | ⟨t, rest, hdrop, hne, htok, htns, hrest⟩
  · left
    exact ⟨h0, by simp [fscanf_d, hdrop, scanSigned]⟩
  · right
    have hstop : stopsDigits rest := fun c hc => isDigit_of_isSpace c (hrest c hc)
    refine ⟨t, tokens rest, htok, ?_⟩
    cases hh : numericHead t with
    | none =>
      left
      refine ⟨rfl, ?_⟩
      unfold fscanf_d
      rw [hdrop]
      exact scanSigned_reject t rest hne (numericHead_none t hh) hstop
    | some p =>
      obtain ⟨hd, r⟩ := p
      right
      obtain ⟨hteq, hint, hrstop, hhd⟩ := numericHead_some t hd r hh
      have hstop2 : stopsDigits (r ++ rest) := by
        cases r with
        | nil => simpa using hstop
        | cons c cs => intro y hy; exact hrstop y (by simpa using hy)
      have hscan : fscanf_d s = some (toInt32 (tokenValue hd), r ++ rest) := by
        unfold fscanf_d
        rw [hdrop, hteq, List.append_assoc]
        exact scanSigned_token hd (r ++ rest) hint hstop2
      have htoks : tokens (r ++ rest) = (if r.isEmpty then tokens rest else r :: tokens rest) := by
        cases r with
        | nil => simp
        | cons c cs =>
          have hrns : ∀ a ∈ c :: cs, isSpace a = false := by
            intro a ha
            exact htns a (by rw [hteq]; exact List.mem_append_right _ ha)
          simpa using (tokens_append_token (c :: cs) rest (by simp) hrns hrest).2
      refine ⟨hd, r, r ++ rest, rfl, hscan, htoks, ?_⟩
      have hhl : 0 < hd.length := List.length_pos.mpr hhd
      rw [htoks, htok, hteq]
      cases r with
      | nil =>
        simp only [totalLength, List.isEmpty_nil, if_true, List.map_cons, List.sum_cons,
          List.append_nil]
        omega
      | cons c cs =>
        simp only [totalLength, List.isEmpty_cons, Bool.false_eq_true, if_false, List.map_cons,
          List.sum_cons, List.length_append]
        omega

/-- When the content yields fewer than `k` integers, the loop stops with an
error. -/
theorem read_loop_rejects :
    ∀ (k fuel : Nat) (s : List Char) (i : Nat) (acc : List Int),
      totalLength (tokens s) ≤ fuel →
      (integersOfTokens fuel (tokens s)).length < k →
      ∃ j, read_loop k i acc s = .error j := by
  intro k
  induction k with
  | zero => intro fuel s i acc _ h; simp at h
  | succ k ih =>
    intro fuel s i acc hfuel hfew
    rcases fscanf_d_tokens s with ⟨_, hnone⟩ | ⟨t, ts, htok, hcase⟩
    · exact ⟨i, by simp [read_loop, hnone]⟩
    · rcases hcase with ⟨_, hnone⟩ | ⟨hd, r, s1, hh, hscan, htoks, hless⟩
      · exact ⟨i, by simp [read_loop, hnone]⟩
      · cases fuel with
        | zero => omega
        | succ f =>
          rw [htok] at hfew
          simp only [integersOfTokens, hh, List.length_cons, Nat.add_lt_add_iff_right] at hfew
          rw [← htoks] at hfew
          simp only [read_loop, hscan]
          exact ih f s1 (i + 1) _ (by omega) hfew

/-- When the content yields at least `k` integers, the loop fills the array. -/
theorem read_loop_accepts :
    ∀ (k fuel : Nat) (s : List Char) (i : Nat) (acc : List Int),
      totalLength (tokens s) ≤ fuel →
      k ≤ (integersOfTokens fuel (tokens s)).length →
      ∃ array, read_loop k i acc s = .ok array := by
  intro k
  induction k with
  | zero => intro fuel s i acc _ _; exact ⟨acc, by simp [read_loop]⟩
  | succ k ih =>
    intro fuel s i acc hfuel hmany
    rcases fscanf_d_tokens s with ⟨h0, _⟩ | ⟨t, ts, htok, hcase⟩
    · rw [h0] at hmany
      cases fuel <;> simp [integersOfTokens] at hmany
    · rcases hcase with ⟨hh, _⟩ | ⟨hd, r, s1, hh, hscan, htoks, hless⟩
      · rw [htok] at hmany
        cases fuel <;> simp [integersOfTokens, hh] at hmany
      · cases fuel with
        | zero => omega
        | succ f =>
          rw [htok] at hmany
          simp only [integersOfTokens, hh, List.length_cons, Nat.add_le_add_iff_right] at hmany
          rw [← htoks] at hmany
          simp only [read_loop, hscan]
          exact ih f s1 (i + 1) _ (by omega) hmany

theorem read_loop_length :
    ∀ (k : Nat) (s : List Char) (i : Nat) (acc array : List Int),
      read_loop k i acc s = .ok array → array.length = acc.length + k := by
  intro k
  induction k with
  | zero => intro s i acc array h; simp [read_loop] at h; simp [h]
  | succ k ih =>
    intro s i acc array h
    cases hs : fscanf_d s with
    | none => simp [read_loop, hs] at h
    | some r =>
      obtain ⟨v, rest⟩ := r
      simp only [read_loop, hs] at h
      have := ih rest (i + 1) _ array h
      simp at this
      omega

/-- The flag `*success` and the returned pointer agree: either 0 and `NULL`,
or 1 and an array of exactly `n` elements. -/
theorem read_file_all_or_nothing (env : Env) (call : Nat) (filename : String) (n : Int) :
    ((read_file env call filename n).success = 0 ∧ (read_file env call filename n).array = none) ∨
    ((read_file env call filename n).success = 1 ∧
      ∃ array, (read_file env call filename n).array = some array ∧ array.length = n.toNat) := by
  unfold read_file
  cases hf : env.files filename with
  | none => simp
  | some content =>
    by_cases hm : env.mallocOk call = false
    · simp [hm]
    · cases hl : read_loop n.toNat 0 [] content with
      | error j => simp [hm, hl]
      | ok array =>
        have := read_loop_length _ _ _ _ _ hl
        simp [hm, hl]
        simpa using this

/-! ## Lemmas on traces -/

theorem stdoutOf_append (t u : List Event) : stdoutOf (t ++ u) = stdoutOf t ++ stdoutOf u := by
  induction t with
  | nil => rfl
  | cons e es ih => cases e <;> simp [stdoutOf, ih]

theorem exitStatus_append_exit (t : List Event) (status : Int) :
    exitStatus (t ++ [.exit status]) = some status := by
  simp [exitStatus]

/-- Nothing `read_file` does prints on standard output, creates a pipe or forks,
and it calls `fopen` once. -/
theorem read_file_events (env : Env) (call : Nat) (filename : String) (n : Int) :
    stdoutOf (read_file env call filename n).events = [] ∧
    countPipe (read_file env call filename n).events = 0 ∧
    countFork (read_file env call filename n).events = 0 ∧
    countFopen (read_file env call filename n).events = 1 := by
  unfold read_file
  cases env.files filename with
  | none => simp [stdoutOf, countPipe, countFork, countFopen]
  | some content =>
    by_cases hm : env.mallocOk call = false
    · simp [hm, stdoutOf, countPipe, countFork, countFopen]
    · cases hl : read_loop n.toNat 0 [] content with
      | error j => simp [hm, hl, stdoutOf, countPipe, countFork, countFopen]
      | ok array => simp [hm, hl, stdoutOf, countPipe, countFork, countFopen]

/-- When either array fails to load, `main` exits with `EXIT_FAILURE` before
line 116: nothing on standard output, no pipe, no fork, Root alone. -/
theorem main_load_failure (env : Env) (prog arg1 file00 arg3 file01 : String)
    (hN1 : 0 < atoi arg1) (hN2 : 0 < atoi arg3)
    (h : (read_file env 0 file00 (atoi arg1)).success = 0 ∨
         (read_file env 1 file01 (atoi arg3)).success = 0) :
    (main env [prog, arg1, file00, arg3, file01]).status = some 1 ∧
    (main env [prog, arg1, file00, arg3, file01]).stdout = [] ∧
    countPipe (main env [prog, arg1, file00, arg3, file01]).root = 0 ∧
    countFork (main env [prog, arg1, file00, arg3, file01]).root = 0 ∧
    (main env [prog, arg1, file00, arg3, file01]).processes =
      [(main env [prog, arg1, file00, arg3, file01]).root] := by
  have hargs : ¬ (atoi arg1 ≤ 0 ∨ atoi arg3 ≤ 0) := by omega
  obtain ⟨a1, a2, a3, _⟩ := read_file_events env 0 file00 (atoi arg1)
  obtain ⟨b1, b2, b3, _⟩ := read_file_events env 1 file01 (atoi arg3)
  by_cases h0 : (read_file env 0 file00 (atoi arg1)).success = 0
  · have hm : main env [prog, arg1, file00, arg3, file01] =
        Run.rootOnly ((read_file env 0 file00 (atoi arg1)).events ++ [.exit EXIT_FAILURE]) := by
      simp [main, hargs, h0]
    rw [hm]
    refine ⟨?_, ?_, ?_, ?_, ?_⟩
    · simp only [Run.status, Run.rootOnly, EXIT_FAILURE]
      exact exitStatus_append_exit _ 1
    · simp [Run.stdout, Run.processes, Run.rootOnly, stdoutOf_append, a1, stdoutOf]
    · simp only [countPipe] at a2 ⊢
      simp [Run.rootOnly, List.countP_append, a2]
    · simp only [countFork] at a3 ⊢
      simp [Run.rootOnly, List.countP_append, a3]
    · simp [Run.processes, Run.rootOnly]
  · have h1 : (read_file env 1 file01 (atoi arg3)).success = 0 := by tauto
    have hm : main env [prog, arg1, file00, arg3, file01] =
        Run.rootOnly ((read_file env 0 file00 (atoi arg1)).events ++
          (read_file env 1 file01 (atoi arg3)).events ++ [.exit EXIT_FAILURE]) := by
      simp [main, hargs, h0, h1]
    rw [hm]
    refine ⟨?_, ?_, ?_, ?_, ?_⟩
    · simp only [Run.status, Run.rootOnly, EXIT_FAILURE]
      exact exitStatus_append_exit _ 1
    · simp [Run.stdout, Run.processes, Run.rootOnly, stdoutOf_append, a1, b1, stdoutOf]
    · simp only [countPipe] at a2 b2 ⊢
      simp [Run.rootOnly, List.countP_append, a2, b2]
    · simp only [countFork] at a3 b3 ⊢
      simp [Run.rootOnly, List.countP_append, a3, b3]
    · simp [Run.processes, Run.rootOnly]

/-! ## Claims on `read_file` and on the failures of `main` before the pipes -/

/-- C3, amended: when the content yields fewer than `n` integers to a reading
from left to right (a well-formed integer yields itself, a malformed token
yields only its numeric heads, and the reading ends at the first piece that
does not begin like an integer), `read_file` sets `success` to 0 and returns
`NULL`; and when this is one of the two loads of `main` (counts valid), `main`
exits with status 1 with nothing on standard output, no pipe created, no
process forked. -/
theorem read_file_short_fails (env : Env) (call : Nat) (filename : String) (n : Int)
    (content : List Char) (hopen : env.files filename = some content)
    (hshort : runsShort content n) :
    (read_file env call filename n).success = 0 ∧
    (read_file env call filename n).array = none ∧
    ∀ prog arg1 file00 arg3 file01 : String, 0 < atoi arg1 → 0 < atoi arg3 →
      ((call = 0 ∧ filename = file00 ∧ n = atoi arg1) ∨
       (call = 1 ∧ filename = file01 ∧ n = atoi arg3)) →
      (main env [prog, arg1, file00, arg3, file01]).status = some 1 ∧
      (main env [prog, arg1, file00, arg3, file01]).stdout = [] ∧
      countPipe (main env [prog, arg1, file00, arg3, file01]).root = 0 ∧
      countFork (main env [prog, arg1, file00, arg3, file01]).root = 0 ∧
      (main env [prog, arg1, file00, arg3, file01]).processes =
        [(main env [prog, arg1, file00, arg3, file01]).root] := by
  have hfail : (read_file env call filename n).success = 0 ∧
      (read_file env call filename n).array = none := by
    have hlt : (integersOfTokens content.length (tokens content)).length < n.toNat := by
      have : ((integersRead content).length : Int) < n := hshort
      unfold integersRead at this
      omega
    obtain ⟨j, hj⟩ := read_loop_rejects n.toNat content.length content 0 []
      (totalLength_tokens_le content.length content (Nat.le_refl _)) hlt
    unfold read_file
    rw [hopen]
    by_cases hm : env.mallocOk call = false
    · simp [hm]
    · simp [hm, hj]
  refine ⟨hfail.1, hfail.2, ?_⟩
  intro prog arg1 file00 arg3 file01 hN1 hN2 hwhich
  apply main_load_failure env prog arg1 file00 arg3 file01 hN1 hN2
  rcases hwhich with ⟨rfl, rfl, rfl⟩ | ⟨rfl, rfl, rfl⟩
  · exact Or.inl hfail.1
  · exact Or.inr hfail.1

/-- On a file that opens, with the buffer allocated, `read_file` fails exactly
when the content runs short of `n` integers. -/
theorem read_file_fails_iff_runsShort (env : Env) (call : Nat) (filename : String) (n : Int)
    (content : List Char) (hopen : env.files filename = some content)
    (hmalloc : env.mallocOk call = true) :
    (read_file env call filename n).success = 0 ↔ runsShort content n := by
  have hfuel := totalLength_tokens_le content.length content (Nat.le_refl _)
  unfold runsShort integersRead
  constructor
  · intro hfail
    by_contra hnot
    have hmany : n.toNat ≤ (integersOfTokens content.length (tokens content)).length := by
      omega
    obtain ⟨array, harr⟩ := read_loop_accepts n.toNat content.length content 0 [] hfuel hmany
    simp [read_file, hopen, hmalloc, harr] at hfail
  · intro hshort
    have hlt : (integersOfTokens content.length (tokens content)).length < n.toNat := by
      omega
    obtain ⟨j, hj⟩ := read_loop_rejects n.toNat content.length content 0 [] hfuel hlt
    simp [read_file, hopen, hmalloc, hj]

/-- Witness of C3: the second file holds `1 2 3.5 4` where four integers are
asked for; the reading stops at `.5` after three integers. -/
theorem read_file_short_fails_witness :
    (envOf "1 2 3" "1 2 3.5 4").files "b" = some "1 2 3.5 4".toList ∧
    runsShort "1 2 3.5 4".toList 4 ∧
    (read_file (envOf "1 2 3" "1 2 3.5 4") 1 "b" 4).success = 0 ∧
    (read_file (envOf "1 2 3" "1 2 3.5 4") 1 "b" 4).array = none ∧
    (main (envOf "1 2 3" "1 2 3.5 4") ["prog", "3", "a", "4", "b"]).status = some 1 ∧
    (main (envOf "1 2 3" "1 2 3.5 4") ["prog", "3", "a", "4", "b"]).stdout = [] ∧
    countPipe (main (envOf "1 2 3" "1 2 3.5 4") ["prog", "3", "a", "4", "b"]).root = 0 ∧
    countFork (main (envOf "1 2 3" "1 2 3.5 4") ["prog", "3", "a", "4", "b"]).root = 0 ∧
    (main (envOf "1 2 3" "1 2 3.5 4") ["prog", "3", "a", "4", "b"]).processes =
      [(main (envOf "1 2 3" "1 2 3.5 4") ["prog", "3", "a", "4", "b"]).root] :=
  have h := read_file_short_fails (envOf "1 2 3" "1 2 3.5 4") 1 "b" 4 "1 2 3.5 4".toList
    (by decide) (by unfold runsShort; decide)
  ⟨by decide, by unfold runsShort; decide, h.1, h.2.1,
    h.2.2 "prog" "3" "a" "4" "b" (by decide) (by decide) (Or.inr ⟨rfl, rfl, by decide⟩)⟩

/-- Contents with a malformed token that run short: `7x` for two integers,
`1 2 3.5 4` for four, `1,2,3` for three, `1-2x 9` for three, `10 20` for three;
and contents that do not: `7x` for one integer, `1-2 9` for three. -/
theorem runsShort_examples :
    (integersRead "7x".toList = ["7".toList]) ∧
    (integersRead "1 2 3.5 4".toList = ["1".toList, "2".toList, "3".toList]) ∧
    (integersRead "1,2,3".toList = ["1".toList]) ∧
    (integersRead "1-2x 9".toList = ["1".toList, "-2".toList]) ∧
    (integersRead "1-2 9".toList = ["1".toList, "-2".toList, "9".toList]) ∧
    runsShort "7x".toList 2 ∧ runsShort "1 2 3.5 4".toList 4 ∧ runsShort "1,2,3".toList 3 ∧
    runsShort "1-2x 9".toList 3 ∧ runsShort "10 20".toList 3 ∧
    ¬ runsShort "7x".toList 1 ∧ ¬ runsShort "1-2 9".toList 3 ∧
    (read_file (envOf "1-2 9" "") 0 "a" 3).array = some [1, -2, 9] := by
  unfold runsShort
  decide

/-- Counterexample to C3 as stated: the only token of `7x` is malformed, so the
content holds no well-formed integer, yet `read_file` asked for one integer
succeeds with the array `[7]`, and `main` goes on to print its three lines. -/
theorem read_file_numeric_head_counterexample :
    tokens "7x".toList = ["7x".toList] ∧ isIntToken "7x".toList = false ∧
    (leadingIntegers "7x".toList).length = 0 ∧
    (read_file (envOf "7x" "5") 0 "a" 1).success = 1 ∧
    (read_file (envOf "7x" "5") 0 "a" 1).array = some [7] ∧
    (main (envOf "7x" "5") ["prog", "1", "a", "1", "b"]).status = some 0 ∧
    (main (envOf "7x" "5") ["prog", "1", "a", "1", "b"]).stdout =
      ["Suma del archivo a (Nieto): 7\n", "Suma del archivo b (Segundo hijo): 5\n",
       "Suma total (Primer hijo): 12\n"] := by
  decide

/-- C4, amended: when the buffer is allocated and the content begins with at
least `n > 0` whitespace-separated decimal integers that each fit an `int`,
`read_file` sets `success` to 1 and returns exactly those `n` integers in file
order; any other content with the same first `n` tokens loads the same array. -/
theorem read_file_loads (env : Env) (call : Nat) (filename : String) (n : Int)
    (content : List Char) (hopen : env.files filename = some content)
    (hmalloc : env.mallocOk call = true) (hn : 0 < n)
    (hcount : n ≤ ((tokens content).length : Int))
    (hwf : ∀ t ∈ (tokens content).take n.toNat, isIntToken t = true ∧ fitsInt t) :
    (read_file env call filename n).success = 1 ∧
    (read_file env call filename n).array = some (((tokens content).take n.toNat).map tokenValue) ∧
    (((tokens content).take n.toNat).map tokenValue).length = n.toNat ∧
    ∀ (env2 : Env) (call2 : Nat) (filename2 : String) (content2 : List Char),
      env2.files filename2 = some content2 → env2.mallocOk call2 = true →
      (tokens content2).take n.toNat = (tokens content).take n.toNat →
      (read_file env2 call2 filename2 n).array = (read_file env call filename n).array := by
  have key : ∀ (e : Env) (c : Nat) (f : String) (ct : List Char),
      e.files f = some ct → e.mallocOk c = true →
      (tokens ct).take n.toNat = (tokens content).take n.toNat →
      (read_file e c f n).success = 1 ∧
      (read_file e c f n).array = some (((tokens content).take n.toNat).map tokenValue) := by
    intro e c f ct ho hm htk
    have hlen : n.toNat ≤ (tokens ct).length := by
      have h1 : ((tokens ct).take n.toNat).length = n.toNat := by
        rw [htk, List.length_take]; omega
      rw [List.length_take] at h1; omega
    have hloop := read_loop_tokens n.toNat ct 0 [] hlen
      (by rw [htk]; intro t ht; exact (hwf t ht).1)
    have hval : ((tokens content).take n.toNat).map (fun t => toInt32 (tokenValue t)) =
        ((tokens content).take n.toNat).map tokenValue := by
      apply List.map_congr_left
      intro t ht
      exact toInt32_of_range _ (hwf t ht).2.1 (hwf t ht).2.2
    rw [htk, hval] at hloop
    unfold read_file
    rw [ho]
    simp [hm, hloop]
  obtain ⟨k1, k2⟩ := key env call filename content hopen hmalloc rfl
  refine ⟨k1, k2, ?_, ?_⟩
  · rw [List.length_map, List.length_take]; omega
  · intro env2 call2 filename2 content2 ho hm htk
    rw [k2, (key env2 call2 filename2 content2 ho hm htk).2]

/-- Witness of C4: three integers are asked of a file that holds four tokens. -/
theorem read_file_loads_witness :
    (read_file (envOf " 1 -2\n+3 x" "") 0 "a" 3).success = 1 ∧
    (read_file (envOf " 1 -2\n+3 x" "") 0 "a" 3).array =
      some (((tokens " 1 -2\n+3 x".toList).take (3 : Int).toNat).map tokenValue) ∧
    (((tokens " 1 -2\n+3 x".toList).take (3 : Int).toNat).map tokenValue).length = (3 : Int).toNat ∧
    ∀ (env2 : Env) (call2 : Nat) (filename2 : String) (content2 : List Char),
      env2.files filename2 = some content2 → env2.mallocOk call2 = true →
      (tokens content2).take (3 : Int).toNat = (tokens " 1 -2\n+3 x".toList).take (3 : Int).toNat →
      (read_file env2 call2 filename2 3).array =
        (read_file (envOf " 1 -2\n+3 x" "") 0 "a" 3).array :=
  read_file_loads (envOf " 1 -2\n+3 x" "") 0 "a" 3 " 1 -2\n+3 x".toList (by decide) (by decide)
    (by decide) (by decide) (by unfold fitsInt; decide)

/-- Counterexample to C4 as stated: the file opens and holds the three integers
`1 2 3`, but `malloc` returns `NULL`, and `read_file` reports failure. -/
theorem read_file_malloc_counterexample :
    ({ envOf "1 2 3" "" with mallocOk := fun _ => false }).files "a" = some "1 2 3".toList ∧
    (tokens "1 2 3".toList).map tokenValue = [1, 2, 3] ∧
    (tokens "1 2 3".toList).all isIntToken = true ∧
    (read_file { envOf "1 2 3" "" with mallocOk := fun _ => false } 0 "a" 3).success = 0 ∧
    (read_file { envOf "1 2 3" "" with mallocOk := fun _ => false } 0 "a" 3).array = none := by
  decide

/-- C5: with four positional arguments of which `N1` or `N2` is not positive,
`main` prints only the invalid-arguments message on the error stream and exits
with status 1: nothing on standard output, no file opened, no pipe, no fork. -/
theorem main_rejects_nonpositive (env : Env) (prog arg1 file00 arg3 file01 : String)
    (h : atoi arg1 ≤ 0 ∨ atoi arg3 ≤ 0) :
    (main env [prog, arg1, file00, arg3, file01]).root =
      [.stderr "N1 y N2 deben ser enteros positivos\n", .exit 1] ∧
    (main env [prog, arg1, file00, arg3, file01]).status = some 1 ∧
    (main env [prog, arg1, file00, arg3, file01]).stdout = [] ∧
    countFopen (main env [prog, arg1, file00, arg3, file01]).root = 0 ∧
    countPipe (main env [prog, arg1, file00, arg3, file01]).root = 0 ∧
    countFork (main env [prog, arg1, file00, arg3, file01]).root = 0 ∧
    (main env [prog, arg1, file00, arg3, file01]).processes =
      [(main env [prog, arg1, file00, arg3, file01]).root] := by
  have hm : main env [prog, arg1, file00, arg3, file01] =
      Run.rootOnly [.stderr "N1 y N2 deben ser enteros positivos\n", .exit EXIT_FAILURE] := by
    simp [main, h]
  rw [hm]
  simp [Run.rootOnly, Run.status, Run.stdout, Run.processes, exitStatus, stdoutOf, countFopen,
    countPipe, countFork, EXIT_FAILURE]

/-- Witness of C5: `N2` is given as `0`, with both files present and loadable. -/
theorem main_rejects_nonpositive_witness :
    (atoi "3" ≤ 0 ∨ atoi "0" ≤ 0) ∧
    (main (envOf "1 2 3" "10 20") ["prog", "3", "a", "0", "b"]).root =
      [.stderr "N1 y N2 deben ser enteros positivos\n", .exit 1] ∧
    (main (envOf "1 2 3" "10 20") ["prog", "3", "a", "0", "b"]).status = some 1 ∧
    (main (envOf "1 2 3" "10 20") ["prog", "3", "a", "0", "b"]).stdout = [] ∧
    countFopen (main (envOf "1 2 3" "10 20") ["prog", "3", "a", "0", "b"]).root = 0 ∧
    countPipe (main (envOf "1 2 3" "10 20") ["prog", "3", "a", "0", "b"]).root = 0 ∧
    countFork (main (envOf "1 2 3" "10 20") ["prog", "3", "a", "0", "b"]).root = 0 ∧
    (main (envOf "1 2 3" "10 20") ["prog", "3", "a", "0", "b"]).processes =
      [(main (envOf "1 2 3" "10 20") ["prog", "3", "a", "0", "b"]).root] :=
  ⟨by decide, main_rejects_nonpositive (envOf "1 2 3" "10 20") "prog" "3" "a" "0" "b" (by decide)⟩

/-- C9: when a file cannot be opened, `read_file` sets `success` to 0 and
returns `NULL`; and when this is one of the two loads of `main` (counts valid),
also the second one after the first file loaded, `main` exits with status 1
with nothing on standard output, no pipe created, no process forked. -/
theorem read_file_unopenable_fails (env : Env) (call : Nat) (filename : String) (n : Int)
    (hclosed : env.files filename = none) :
    (read_file env call filename n).success = 0 ∧
    (read_file env call filename n).array = none ∧
    ∀ prog arg1 file00 arg3 file01 : String, 0 < atoi arg1 → 0 < atoi arg3 →
      ((call = 0 ∧ filename = file00 ∧ n = atoi arg1) ∨
       (call = 1 ∧ filename = file01 ∧ n = atoi arg3)) →
      (main env [prog, arg1, file00, arg3, file01]).status = some 1 ∧
      (main env [prog, arg1, file00, arg3, file01]).stdout = [] ∧
      countPipe (main env [prog, arg1, file00, arg3, file01]).root = 0 ∧
      countFork (main env [prog, arg1, file00, arg3, file01]).root = 0 ∧
      (main env [prog, arg1, file00, arg3, file01]).processes =
        [(main env [prog, arg1, file00, arg3, file01]).root] := by
  have hfail : (read_file env call filename n).success = 0 ∧
      (read_file env call filename n).array = none := by
    unfold read_file
    rw [hclosed]
    simp
  refine ⟨hfail.1, hfail.2, ?_⟩
  intro prog arg1 file00 arg3 file01 hN1 hN2 hwhich
  apply main_load_failure env prog arg1 file00 arg3 file01 hN1 hN2
  rcases hwhich with ⟨rfl, rfl, rfl⟩ | ⟨rfl, rfl, rfl⟩
  · exact Or.inl hfail.1
  · exact Or.inr hfail.1

/-- Witness of C9: the first file loads (`success = 1`), the second, `missing`,
cannot be opened. -/
theorem read_file_unopenable_fails_witness :
    (envOf "1 2 3" "10 20").files "missing" = none ∧
    (read_file (envOf "1 2 3" "10 20") 0 "a" 3).success = 1 ∧
    (read_file (envOf "1 2 3" "10 20") 1 "missing" 2).success = 0 ∧
    (read_file (envOf "1 2 3" "10 20") 1 "missing" 2).array = none ∧
    (main (envOf "1 2 3" "10 20") ["prog", "3", "a", "2", "missing"]).status = some 1 ∧
    (main (envOf "1 2 3" "10 20") ["prog", "3", "a", "2", "missing"]).stdout = [] ∧
    countPipe (main (envOf "1 2 3" "10 20") ["prog", "3", "a", "2", "missing"]).root = 0 ∧
    countFork (main (envOf "1 2 3" "10 20") ["prog", "3", "a", "2", "missing"]).root = 0 ∧
    (main (envOf "1 2 3" "10 20") ["prog", "3", "a", "2", "missing"]).processes =
      [(main (envOf "1 2 3" "10 20") ["prog", "3", "a", "2", "missing"]).root] :=
  have h := read_file_unopenable_fails (envOf "1 2 3" "10 20") 1 "missing" 2 (by decide)
  ⟨by decide, by decide, h.1, h.2.1,
    h.2.2 "prog" "3" "a" "2" "missing" (by decide) (by decide) (Or.inr ⟨rfl, rfl, by decide⟩)⟩

/-! ## The run of a valid invocation -/

theorem read_file_loaded (env : Env) (call : Nat) (filename : String) (n : Int) (A : List Int)
    (h : (read_file env call filename n).array = some A) :
    (read_file env call filename n).success = 1 ∧
    (read_file env call filename n).events = [.fopen filename true, .fclose filename] ∧
    A.length = n.toNat := by
  unfold read_file at h ⊢
  cases hf : env.files filename with
  | none => simp [hf] at h
  | some content =>
    by_cases hm : env.mallocOk call = false
    · simp [hf, hm] at h
    · cases hl : read_loop n.toNat 0 [] content with
      | error j => simp [hf, hm, hl] at h
      | ok array =>
        have hlen := read_loop_length _ _ _ _ _ hl
        simp [hf, hm, hl] at h
        subst h
        simp [hm, hl]
        simpa using hlen

/-- The four traces of a valid run, event by event. -/
theorem main_valid (env : Env) (prog arg1 file00 arg3 file01 : String) (A B : List Int)
    (h : ValidRun env arg1 file00 arg3 file01 A B) :
    main env [prog, arg1, file00, arg3, file01] =
      { root :=
          [.fopen file00 true, .fclose file00, .fopen file01 true, .fclose file01,
           .pipe .grandchild true, .pipe .second true, .pipe .first true,
           .fork .FirstChild true,
           .close .grandchild1, .close .second1, .close .first1,
           .read .grandchild0 (some (toInt32 A.sum)), .read .second0 (some (toInt32 B.sum)),
           .read .first0 (some (toInt32 (A.sum + B.sum))),
           .close .grandchild0, .close .second0, .close .first0,
           .stdout (printf_sumA file00 (toInt32 A.sum)),
           .stdout (printf_sumB file01 (toInt32 B.sum)),
           .stdout (printf_total (toInt32 (A.sum + B.sum))),
           .wait, .exit 0],
        firstChild := some
          [.close .first0, .fork .Grandchild true, .fork .SecondChild true,
           .write .first1 (toInt32 (A.sum + B.sum)) true, .close .first1,
           .close .grandchild0, .close .grandchild1, .close .second0, .close .second1,
           .wait, .wait, .exit 0],
        grandchild := some
          [.close .second0, .close .second1, .close .first1, .close .grandchild0,
           .write .grandchild1 (toInt32 A.sum) true, .close .grandchild1, .exit 0],
        secondChild := some
          [.close .grandchild0, .close .grandchild1, .close .first1, .close .second0,
           .write .second1 (toInt32 B.sum) true, .close .second1, .exit 0] } := by
  obtain ⟨hN1, hN2, h00, h01, hp, hf, hw, hr⟩ := h
  obtain ⟨s0, e0, l0⟩ := read_file_loaded _ _ _ _ _ h00
  obtain ⟨s1, e1, l1⟩ := read_file_loaded _ _ _ _ _ h01
  have hargs : ¬ (atoi arg1 ≤ 0 ∨ atoi arg3 ≤ 0) := by omega
  have cA : calculate_sum A (atoi arg1) = some (toInt32 A.sum) :=
    calculate_sum_eq A _ (by omega)
  have cB : calculate_sum B (atoi arg3) = some (toInt32 B.sum) :=
    calculate_sum_eq B _ (by omega)
  simp [main, hargs, s0, s1, e0, e1, h00, h01, create_pipes, hp, spawn_tree, hf, hw, hr,
    first_child_role, grandchild_role, second_child_role, first_child_total, cA, cB,
    receive, written, toInt32_add_both, EXIT_SUCCESS]

/-! ## Claims on the valid run -/

/-- C1, amended: in every valid run the three numbers printed are the sum of
`A`, the sum of `B` and the sum of both, each reduced modulo `2^32` into the
signed 32-bit range, so that the total is the wrapped sum of the two printed
sums; when the sum of `A`, the sum of `B` and their sum all fit an `int`, the
total printed is exactly the sum of `A` plus the sum of `B`, and exactly the
first printed sum plus the second. -/
theorem main_total_wraps (env : Env) (prog arg1 file00 arg3 file01 : String) (A B : List Int)
    (h : ValidRun env arg1 file00 arg3 file01 A B) :
    (main env [prog, arg1, file00, arg3, file01]).stdout =
      [printf_sumA file00 (toInt32 A.sum), printf_sumB file01 (toInt32 B.sum),
       printf_total (toInt32 (A.sum + B.sum))] ∧
    toInt32 (A.sum + B.sum) = toInt32 (toInt32 A.sum + toInt32 B.sum) ∧
    (-2147483648 ≤ A.sum ∧ A.sum < 2147483648 → -2147483648 ≤ B.sum ∧ B.sum < 2147483648 →
      -2147483648 ≤ A.sum + B.sum ∧ A.sum + B.sum < 2147483648 →
      toInt32 (A.sum + B.sum) = A.sum + B.sum ∧
      toInt32 (A.sum + B.sum) = toInt32 A.sum + toInt32 B.sum) := by
  refine ⟨?_, (toInt32_add_both _ _).symm, ?_⟩
  · rw [main_valid env prog arg1 file00 arg3 file01 A B h]
    simp [Run.stdout, Run.processes, stdoutOf]
  · intro hA hB hAB
    rw [toInt32_of_range _ hA.1 hA.2, toInt32_of_range _ hB.1 hB.2,
      toInt32_of_range _ hAB.1 hAB.2]
    exact ⟨rfl, rfl⟩

/-- Witness of C1: the two scenarios of the specification, `1 2 3` with `10 20`
printing 6, 30, 36, and `-5` with `5` printing -5, 5, 0. -/
theorem main_total_wraps_witness :
    ValidRun (envOf "1 2 3" "10 20") "3" "a" "2" "b" [1, 2, 3] [10, 20] ∧
    (main (envOf "1 2 3" "10 20") ["prog", "3", "a", "2", "b"]).stdout =
      ["Suma del archivo a (Nieto): 6\n", "Suma del archivo b (Segundo hijo): 30\n",
       "Suma total (Primer hijo): 36\n"] ∧
    ValidRun (envOf "-5" "5") "1" "a" "1" "b" [-5] [5] ∧
    (main (envOf "-5" "5") ["prog", "1", "a", "1", "b"]).stdout =
      ["Suma del archivo a (Nieto): -5\n", "Suma del archivo b (Segundo hijo): 5\n",
       "Suma total (Primer hijo): 0\n"] :=
  have h1 : ValidRun (envOf "1 2 3" "10 20") "3" "a" "2" "b" [1, 2, 3] [10, 20] :=
    ⟨by decide, by decide, by decide, by decide, fun _ => rfl, fun _ => rfl, fun _ => rfl,
      fun _ => rfl⟩
  have h2 : ValidRun (envOf "-5" "5") "1" "a" "1" "b" [-5] [5] :=
    ⟨by decide, by decide, by decide, by decide, fun _ => rfl, fun _ => rfl, fun _ => rfl,
      fun _ => rfl⟩
  ⟨h1, (main_total_wraps _ "prog" "3" "a" "2" "b" _ _ h1).1.trans (by decide),
   h2, (main_total_wraps _ "prog" "1" "a" "1" "b" _ _ h2).1.trans (by decide)⟩

/-- Counterexample to C1 as stated: with `A = [2147483647]` and `B = [1]` the run
is valid and prints 2147483647, 1 and -2147483648: the total printed is not
the sum of the two arrays, nor the sum of the two printed sums. -/
theorem main_total_overflow_counterexample :
    ValidRun (envOf "2147483647" "1") "1" "a" "1" "b" [2147483647] [1] ∧
    (main (envOf "2147483647" "1") ["prog", "1", "a", "1", "b"]).stdout =
      [printf_sumA "a" 2147483647, printf_sumB "b" 1, printf_total (-2147483648)] ∧
    (main (envOf "2147483647" "1") ["prog", "1", "a", "1", "b"]).stdout =
      ["Suma del archivo a (Nieto): 2147483647\n", "Suma del archivo b (Segundo hijo): 1\n",
       "Suma total (Primer hijo): -2147483648\n"] ∧
    (-2147483648 : Int) ≠ ([2147483647] : List Int).sum + ([1] : List Int).sum ∧
    (-2147483648 : Int) ≠ 2147483647 + 1 :=
  ⟨⟨by decide, by decide, by decide, by decide, fun _ => rfl, fun _ => rfl, fun _ => rfl,
      fun _ => rfl⟩, by decide, by decide, by decide, by decide⟩

/-- C7, amended: in every valid run standard output is exactly three lines in
this order: the sum Grandchild wrote, the sum SecondChild wrote, the total
FirstChild wrote.  The first line is `Suma del archivo`, the first file name,
`(Nieto):` and the sum; the second is `Suma del archivo`, the second file name,
`(Segundo hijo):` and the sum; the third is `Suma total (Primer hijo):` and the
total, with no file name in its label. -/
theorem main_prints_three_lines (env : Env) (prog arg1 file00 arg3 file01 : String)
    (A B : List Int) (h : ValidRun env arg1 file00 arg3 file01 A B) :
    ∃ sumA sumB total : Int,
      (main env [prog, arg1, file00, arg3, file01]).grandchild.bind (written .grandchild1) =
        some sumA ∧
      (main env [prog, arg1, file00, arg3, file01]).secondChild.bind (written .second1) =
        some sumB ∧
      (main env [prog, arg1, file00, arg3, file01]).firstChild.bind (written .first1) =
        some total ∧
      sumA = toInt32 A.sum ∧ sumB = toInt32 B.sum ∧ total = toInt32 (A.sum + B.sum) ∧
      (main env [prog, arg1, file00, arg3, file01]).stdout =
        ["Suma del archivo " ++ file00 ++ " (Nieto): " ++ toString sumA ++ "\n",
         "Suma del archivo " ++ file01 ++ " (Segundo hijo): " ++ toString sumB ++ "\n",
         "Suma total (Primer hijo): " ++ toString total ++ "\n"] ∧
      file00.toList <:+:
        ("Suma del archivo " ++ file00 ++ " (Nieto): " ++ toString sumA ++ "\n").toList ∧
      file01.toList <:+:
        ("Suma del archivo " ++ file01 ++ " (Segundo hijo): " ++ toString sumB ++ "\n").toList ∧
      (main env [prog, arg1, file00, arg3, file01]).status = some 0 := by
  refine ⟨toInt32 A.sum, toInt32 B.sum, toInt32 (A.sum + B.sum), ?_, ?_, ?_, rfl, rfl, rfl,
    ?_, ?_, ?_, ?_⟩
  · rw [main_valid env prog arg1 file00 arg3 file01 A B h]
    simp [written]
  · rw [main_valid env prog arg1 file00 arg3 file01 A B h]
    simp [written]
  · rw [main_valid env prog arg1 file00 arg3 file01 A B h]
    simp [written]
  · rw [main_valid env prog arg1 file00 arg3 file01 A B h]
    simp [Run.stdout, Run.processes, stdoutOf, printf_sumA, printf_sumB, printf_total]
  · refine ⟨"Suma del archivo ".toList, (" (Nieto): " ++ toString (toInt32 A.sum) ++ "\n").toList, ?_⟩
    simp [String.toList, List.append_assoc]
  · refine ⟨"Suma del archivo ".toList,
      (" (Segundo hijo): " ++ toString (toInt32 B.sum) ++ "\n").toList, ?_⟩
    simp [String.toList, List.append_assoc]
  · rw [main_valid env prog arg1 file00 arg3 file01 A B h]
    simp [Run.status, exitStatus]

/-- Witness of C7: files `x.txt` holding `1 2 3` and `y.txt` holding `10 20`. -/
theorem main_prints_three_lines_witness :
    ValidRun (envNamed "x.txt" "1 2 3" "y.txt" "10 20") "3" "x.txt" "2" "y.txt" [1, 2, 3] [10, 20] ∧
    ∃ sumA sumB total : Int,
      (main (envNamed "x.txt" "1 2 3" "y.txt" "10 20")
        ["prog", "3", "x.txt", "2", "y.txt"]).grandchild.bind (written .grandchild1) = some sumA ∧
      (main (envNamed "x.txt" "1 2 3" "y.txt" "10 20")
        ["prog", "3", "x.txt", "2", "y.txt"]).secondChild.bind (written .second1) = some sumB ∧
      (main (envNamed "x.txt" "1 2 3" "y.txt" "10 20")
        ["prog", "3", "x.txt", "2", "y.txt"]).firstChild.bind (written .first1) = some total ∧
      sumA = toInt32 ([1, 2, 3] : List Int).sum ∧ sumB = toInt32 ([10, 20] : List Int).sum ∧
      total = toInt32 (([1, 2, 3] : List Int).sum + ([10, 20] : List Int).sum) ∧
      (main (envNamed "x.txt" "1 2 3" "y.txt" "10 20") ["prog", "3", "x.txt", "2", "y.txt"]).stdout =
        ["Suma del archivo " ++ "x.txt" ++ " (Nieto): " ++ toString sumA ++ "\n",
         "Suma del archivo " ++ "y.txt" ++ " (Segundo hijo): " ++ toString sumB ++ "\n",
         "Suma total (Primer hijo): " ++ toString total ++ "\n"] ∧
      "x.txt".toList <:+:
        ("Suma del archivo " ++ "x.txt" ++ " (Nieto): " ++ toString sumA ++ "\n").toList ∧
      "y.txt".toList <:+:
        ("Suma del archivo " ++ "y.txt" ++ " (Segundo hijo): " ++ toString sumB ++ "\n").toList ∧
      (main (envNamed "x.txt" "1 2 3" "y.txt" "10 20")
        ["prog", "3", "x.txt", "2", "y.txt"]).status = some 0 :=
  have hv : ValidRun (envNamed "x.txt" "1 2 3" "y.txt" "10 20") "3" "x.txt" "2" "y.txt"
      [1, 2, 3] [10, 20] :=
    ⟨by decide, by decide, by decide, by decide, fun _ => rfl, fun _ => rfl, fun _ => rfl,
      fun _ => rfl⟩
  ⟨hv, main_prints_three_lines _ "prog" "3" "x.txt" "2" "y.txt" _ _ hv⟩

/-- Counterexample to C7 as stated: with files `x.txt` and `y.txt` the third line
is `Suma total (Primer hijo): 36`, in which neither file name occurs. -/
theorem total_line_no_filename_counterexample :
    ValidRun (envNamed "x.txt" "1 2 3" "y.txt" "10 20") "3" "x.txt" "2" "y.txt" [1, 2, 3] [10, 20] ∧
    (main (envNamed "x.txt" "1 2 3" "y.txt" "10 20") ["prog", "3", "x.txt", "2", "y.txt"]).stdout =
      ["Suma del archivo x.txt (Nieto): 6\n", "Suma del archivo y.txt (Segundo hijo): 30\n",
       "Suma total (Primer hijo): 36\n"] ∧
    ¬ ("x.txt".toList <:+: "Suma total (Primer hijo): 36\n".toList) ∧
    ¬ ("y.txt".toList <:+: "Suma total (Primer hijo): 36\n".toList) :=
  ⟨⟨by decide, by decide, by decide, by decide, fun _ => rfl, fun _ => rfl, fun _ => rfl,
      fun _ => rfl⟩, by decide, by decide, by decide⟩

/-- C8, amended: in every valid run each role reads or writes exactly its
designated endpoints; Root, Grandchild and SecondChild have closed every
other endpoint before their first blocking operation; FirstChild has closed
`pipe_first[0]` before its first blocking operation (its write), but closes the
four endpoints of `pipe_grandchild` and `pipe_second` only after that write, and
before its first `wait`. -/
theorem endpoint_discipline (env : Env) (prog arg1 file00 arg3 file01 : String)
    (A B : List Int) (h : ValidRun env arg1 file00 arg3 file01 A B) :
    (∀ role : Role, ∃ t, (main env [prog, arg1, file00, arg3, file01]).history role = some t ∧
      ∀ fd : Fd, usesFd fd t = true ↔ fd ∈ designated role) ∧
    (∀ role : Role, role ≠ .FirstChild →
      ∃ t, (main env [prog, arg1, file00, arg3, file01]).history role = some t ∧
        closesUnusedFirst role t) ∧
    (∃ t, (main env [prog, arg1, file00, arg3, file01]).history .FirstChild = some t ∧
      closedBefore isBlocking .first0 t = true ∧
      ∀ fd : Fd, fd ∉ designated .FirstChild → fd ≠ .first0 →
        closedBefore isBlocking fd t = false ∧ closedBefore isWait fd t = true) := by
  rw [main_valid env prog arg1 file00 arg3 file01 A B h]
  refine ⟨?_, ?_, ?_⟩
  · intro role
    cases role <;> refine ⟨_, rfl, ?_⟩ <;> intro fd <;> cases fd <;>
      simp [usesFd, designated, beforeFork]
  · intro role hrole
    cases role
    · refine ⟨_, rfl, ?_⟩
      intro fd hfd
      cases fd <;> simp [designated] at hfd <;>
        simp [closedBefore, isBlocking, List.takeWhile]
    · exact absurd rfl hrole
    · refine ⟨_, rfl, ?_⟩
      intro fd hfd
      cases fd <;> simp [designated] at hfd <;>
        simp [closedBefore, isBlocking, List.takeWhile, beforeFork]
    · refine ⟨_, rfl, ?_⟩
      intro fd hfd
      cases fd <;> simp [designated] at hfd <;>
        simp [closedBefore, isBlocking, List.takeWhile, beforeFork]
  · refine ⟨_, rfl, ?_, ?_⟩
    · simp [closedBefore, isBlocking, List.takeWhile, beforeFork]
    · intro fd hfd hne
      cases fd <;> simp [designated] at hfd <;> simp at hne <;>
        simp [closedBefore, isBlocking, isWait, List.takeWhile, beforeFork]

/-- Witness of C8: the run on `1 2 3` and `10 20`. -/
theorem endpoint_discipline_witness :
    ValidRun (envOf "1 2 3" "10 20") "3" "a" "2" "b" [1, 2, 3] [10, 20] ∧
    (∀ role : Role, ∃ t,
      (main (envOf "1 2 3" "10 20") ["prog", "3", "a", "2", "b"]).history role = some t ∧
      ∀ fd : Fd, usesFd fd t = true ↔ fd ∈ designated role) ∧
    (∀ role : Role, role ≠ .FirstChild →
      ∃ t, (main (envOf "1 2 3" "10 20") ["prog", "3", "a", "2", "b"]).history role = some t ∧
        closesUnusedFirst role t) ∧
    (∃ t, (main (envOf "1 2 3" "10 20") ["prog", "3", "a", "2", "b"]).history .FirstChild = some t ∧
      closedBefore isBlocking .first0 t = true ∧
      ∀ fd : Fd, fd ∉ designated .FirstChild → fd ≠ .first0 →
        closedBefore isBlocking fd t = false ∧ closedBefore isWait fd t = true) :=
  have hv : ValidRun (envOf "1 2 3" "10 20") "3" "a" "2" "b" [1, 2, 3] [10, 20] :=
    ⟨by decide, by decide, by decide, by decide, fun _ => rfl, fun _ => rfl, fun _ => rfl,
      fun _ => rfl⟩
  ⟨hv, endpoint_discipline _ "prog" "3" "a" "2" "b" _ _ hv⟩

/-- Counterexample to C8 as stated: in the run on `1 2 3` and `10 20`, FirstChild
writes into `pipe_first[1]` while `pipe_grandchild[0]`, `pipe_grandchild[1]`,
`pipe_second[0]` and `pipe_second[1]`, none of which it uses, are still open. -/
theorem first_child_open_ends_counterexample :
    ValidRun (envOf "1 2 3" "10 20") "3" "a" "2" "b" [1, 2, 3] [10, 20] ∧
    (main (envOf "1 2 3" "10 20") ["prog", "3", "a", "2", "b"]).history .FirstChild =
      some [.fopen "a" true, .fclose "a", .fopen "b" true, .fclose "b",
            .pipe .grandchild true, .pipe .second true, .pipe .first true,
            .close .first0, .fork .Grandchild true, .fork .SecondChild true,
            .write .first1 36 true, .close .first1,
            .close .grandchild0, .close .grandchild1, .close .second0, .close .second1,
            .wait, .wait, .exit 0] ∧
    Fd.grandchild1 ∉ designated .FirstChild ∧
    ((main (envOf "1 2 3" "10 20") ["prog", "3", "a", "2", "b"]).history .FirstChild).map
      (closedBefore isBlocking .grandchild1) = some false ∧
    ¬ (∀ t ∈ (main (envOf "1 2 3" "10 20") ["prog", "3", "a", "2", "b"]).history .FirstChild,
        closesUnusedFirst .FirstChild t) :=
  ⟨⟨by decide, by decide, by decide, by decide, fun _ => rfl, fun _ => rfl, fun _ => rfl,
      fun _ => rfl⟩, by decide, by decide, by decide, by decide⟩

/-! ## The fork points -/

/-- C6, the code at the failing inputs: when Root's own `fork` fails the run exits
with status 1; when FirstChild's `fork` of Grandchild or of SecondChild fails,
FirstChild exits with status 1, but Root, which discards the status with
`wait(NULL)`, prints its three lines (here the unassigned locals hold 0) and
exits with status 0.  No `fork` is called a second time. -/
theorem fork_failure_status :
    (main { envOf "1 2 3" "10 20" with forkOk := fun r => decide (r ≠ .FirstChild) }
      ["prog", "3", "a", "2", "b"]).status = some 1 ∧
    (main { envOf "1 2 3" "10 20" with forkOk := fun r => decide (r ≠ .Grandchild) }
      ["prog", "3", "a", "2", "b"]).firstChild =
      some [.close .first0, .fork .Grandchild false, .stderr "Fallo en el fork", .exit 1] ∧
    (main { envOf "1 2 3" "10 20" with forkOk := fun r => decide (r ≠ .Grandchild) }
      ["prog", "3", "a", "2", "b"]).status = some 0 ∧
    (main { envOf "1 2 3" "10 20" with forkOk := fun r => decide (r ≠ .Grandchild) }
      ["prog", "3", "a", "2", "b"]).stdout =
      ["Suma del archivo a (Nieto): 0\n", "Suma del archivo b (Segundo hijo): 0\n",
       "Suma total (Primer hijo): 0\n"] ∧
    (main { envOf "1 2 3" "10 20" with forkOk := fun r => decide (r ≠ .SecondChild) }
      ["prog", "3", "a", "2", "b"]).firstChild =
      some [.close .first0, .fork .Grandchild true, .fork .SecondChild false,
            .stderr "Fallo en el fork", .exit 1] ∧
    (main { envOf "1 2 3" "10 20" with forkOk := fun r => decide (r ≠ .SecondChild) }
      ["prog", "3", "a", "2", "b"]).status = some 0 ∧
    (main { envOf "1 2 3" "10 20" with forkOk := fun r => decide (r ≠ .SecondChild) }
      ["prog", "3", "a", "2", "b"]).stdout =
      ["Suma del archivo a (Nieto): 6\n", "Suma del archivo b (Segundo hijo): 0\n",
       "Suma total (Primer hijo): 0\n"] ∧
    countFork (main { envOf "1 2 3" "10 20" with forkOk := fun r => decide (r ≠ .Grandchild) }
      ["prog", "3", "a", "2", "b"]).processes.flatten = 2 := by
  decide

end TallerFork
